import Mathlib

/-!
Verification of the TrustSwarm prophet-arena trust-metrics calculator
(`data/scraped-data/prophet-arena/trust_metrics.py`).

The module computes, per model, a composite trust score out of four
sub-scores (accuracy, calibration, confidence, recency), together with
Brier score, log loss and a confidence-weighted accuracy diagnostic,
and exposes a persisted-snapshot leaderboard query.

Embedding choices:
* a prediction row carries the columns the calculator reads:
  `probability`, `is_correct`, `confidence_score`, `created_at`
  (timestamps measured in days, as rationals);
* a pandas DataFrame is a list of rows plus a flag recording whether
  the `created_at` column already has datetime dtype — the calculator
  converts that column in place, which is the only mutation;
* floats are modelled exactly: rationals for the pure arithmetic,
  reals where `exp`/`log` enter, `EReal` for the infinite log-loss
  sentinel;
* the weights dictionary is an association list with Python
  `dict.update` merge semantics;
* `datetime.now()` is an explicit `now` parameter.
-/

namespace TrustSwarm

/-- One joined prediction record, with the columns that
`TrustMetricsCalculator` reads. -/
structure Pred where
  probability : ℚ
  is_correct : Bool
  confidence_score : ℚ
  created_at : ℚ
deriving DecidableEq

/-- A predictions DataFrame: its rows plus the dtype state of the
`created_at` column (`pd.api.types.is_datetime64_any_dtype`). -/
structure DataFrame where
  rows : List Pred
  created_at_datetime : Bool
deriving DecidableEq

/-- The numeric value of the `is_correct` column after `astype(int)`. -/
def outcomeQ (r : Pred) : ℚ := if r.is_correct then 1 else 0

/-- Arithmetic mean (`np.mean` / `Series.mean`) over exact rationals. -/
def qmean (l : List ℚ) : ℚ := l.sum / l.length

/-- The weights dictionary (`self.weights`), as an association list with
Python dict semantics (unique keys, insertion order). -/
abbrev WeightsDict := List (String × ℚ)

/-- Dictionary lookup. -/
def dictLookup (d : WeightsDict) (k : String) : Option ℚ :=
  (d.find? (fun kv => kv.1 == k)).map (fun kv => kv.2)

/-- Keyed access `self.weights[k]`.  The calculator's dictionary always contains the
four recognized keys (the constructor installs them and `dict.update`
never removes a key), so the `none` branch is never exercised. -/
def wget (d : WeightsDict) (k : String) : ℚ :=
  (dictLookup d k).getD 0

/-- Assignment `d[k] = v` on a Python dict: replace the value when the key is
present, otherwise append the new key. -/
def dictSet (d : WeightsDict) (k : String) (v : ℚ) : WeightsDict :=
  if d.any (fun kv => kv.1 == k) then
    d.map (fun kv => if kv.1 == k then (k, v) else kv)
  else
    d ++ [(k, v)]

/-- Python `old.update(new)`: set every key of `new` in `old`. -/
def dictUpdate (old new : WeightsDict) : WeightsDict :=
  new.foldl (fun acc kv => dictSet acc kv.1 kv.2) old

/-- Value sum `sum(weights.values())`. -/
def dictValuesSum (d : WeightsDict) : ℚ :=
  (d.map (fun kv => kv.2)).sum

/-- The weights installed by `TrustMetricsCalculator.__init__`. -/
def defaultWeights : WeightsDict :=
  [("accuracy", 2/5), ("calibration", 3/10), ("confidence", 1/5), ("recency", 1/10)]

/-- Source `TrustMetricsCalculator.update_weights`: reject when the supplied
values do not sum to 1 within `1e-6`, otherwise merge them into the
current dictionary with `dict.update`. -/
def update_weights (cur new : WeightsDict) : Except String WeightsDict :=
  if 1/1000000 < |dictValuesSum new - 1| then
    Except.error "Weights must sum to 1.0"
  else
    Except.ok (dictUpdate cur new)

/-- Source `TrustMetricsCalculator.calculate_brier_score`:
mean of `(probability - outcome)^2`, `1.0` on empty input. -/
def calculate_brier_score (preds : List Pred) : ℚ :=
  if preds.length = 0 then 1
  else qmean (preds.map (fun r => (r.probability - outcomeQ r) ^ 2))

/-- Clamping `np.clip(p, 1e-15, 1 - 1e-15)` as exact rational arithmetic. -/
def clipQ (p : ℚ) : ℚ :=
  min (max p (1/10 ^ 15)) (1 - 1/10 ^ 15)

/-- Source `TrustMetricsCalculator.calculate_log_loss`: `+inf` on empty input,
otherwise the mean negated log-likelihood with clipped probabilities. -/
noncomputable def calculate_log_loss (preds : List Pred) : EReal :=
  if preds.length = 0 then ⊤
  else
    (((-((preds.map (fun r =>
        (outcomeQ r : ℝ) * Real.log (clipQ r.probability) +
          (1 - (outcomeQ r : ℝ)) * Real.log (1 - (clipQ r.probability : ℝ)))).sum
        / (preds.length : ℝ))) : ℝ) : EReal)

/-- The mask the calibration loop builds for bin `i` out of `bins`:
`probabilities >= bin_edges[i] & probabilities < bin_edges[i+1]`,
with the upper comparison made inclusive on the last bin
(`np.linspace 0 1 (bins+1)` has `bin_edges[i] = i / bins`). -/
def binMask (bins i : ℕ) (p : ℚ) : Bool :=
  decide ((i : ℚ) / (bins : ℚ) ≤ p) &&
    (if i = bins - 1 then decide (p ≤ ((i : ℚ) + 1) / (bins : ℚ))
     else decide (p < ((i : ℚ) + 1) / (bins : ℚ)))

/-- Source `TrustMetricsCalculator.calculate_calibration_score`: reliability
diagram over `bins` equal-width bins; empty bins are skipped
(`continue`), each non-empty bin contributes
`|empirical_freq - predicted_freq| * bin_size` to the error list and
`bin_size` to the total weight; the score is `max 0 (1 - error)` for
the population-weighted mean error. -/
def calculate_calibration_score (preds : List Pred) (bins : ℕ) : ℚ :=
  if preds.length = 0 then 0
  else
    let calibration_errors : List ℚ :=
      (List.range bins).filterMap (fun i =>
        let binPreds := preds.filter (fun r => binMask bins i r.probability)
        if binPreds.length = 0 then none
        else some (|qmean (binPreds.map outcomeQ) -
            qmean (binPreds.map (fun r => r.probability))| * (binPreds.length : ℚ)))
    let total_weight : ℕ :=
      ((List.range bins).map (fun i =>
        (preds.filter (fun r => binMask bins i r.probability)).length)).sum
    if total_weight = 0 then 0
    else max 0 (1 - calibration_errors.sum / (total_weight : ℚ))

/-- Source `TrustMetricsCalculator.calculate_recency_score`: on a non-empty
frame the `created_at` column is converted to datetime in place; rows
older than `now - days` are dropped; the score is the
`np.average` of `is_correct` weighted by `exp(-days_ago / days)`,
where `days_ago` is the whole-day floor of the age.  Returns the score
together with the (possibly mutated) frame. -/
noncomputable def calculate_recency_score (df : DataFrame) (now : ℚ) (days : ℕ) :
    ℝ × DataFrame :=
  if df.rows.length = 0 then (0, df)
  else
    let df2 : DataFrame := ⟨df.rows, true⟩
    let recent := df.rows.filter (fun r => decide (now - (days : ℚ) ≤ r.created_at))
    if recent.length = 0 then (0, df2)
    else
      ((recent.map (fun r =>
          Real.exp (-((⌊now - r.created_at⌋ : ℝ) / (days : ℝ))) * (outcomeQ r : ℝ))).sum /
        (recent.map (fun r =>
          Real.exp (-((⌊now - r.created_at⌋ : ℝ) / (days : ℝ))))).sum, df2)

/-- The `TrustMetrics` dataclass, fields in source order. -/
structure TrustMetrics where
  model_name : String
  category : Option String
  trust_score : ℝ
  accuracy : ℚ
  calibration_score : ℚ
  confidence_score : ℚ
  total_predictions : ℕ
  correct_predictions : ℕ
  brier_score : ℚ
  log_loss : EReal
  weighted_accuracy : ℚ
  calculation_date : ℚ

/-- Source `TrustMetricsCalculator.calculate_trust_score`, applied to the
already-queried predictions frame (the spec's
`computeMetrics(modelName, predictions, category, weights)`), with the
ambient clock made explicit.  Returns the snapshot together with the
frame as it stands after the computation. -/
noncomputable def calculate_trust_score (model_name : String) (category : Option String)
    (df : DataFrame) (weights : WeightsDict) (now : ℚ) : TrustMetrics × DataFrame :=
  if df.rows.length = 0 then
    (⟨model_name, category, 0, 0, 0, 0, 0, 0, 1, ⊤, 0, now⟩, df)
  else
    let preds := df.rows
    let accuracy := qmean (preds.map outcomeQ)
    let total_predictions := preds.length
    let correct_predictions := (preds.filter (fun r => r.is_correct)).length
    let weighted_accuracy :=
      (preds.map (fun r => r.confidence_score * outcomeQ r)).sum /
        (preds.map (fun r => r.confidence_score)).sum
    let brier_score := calculate_brier_score preds
    let log_loss := calculate_log_loss preds
    let calibration_score := calculate_calibration_score preds 10
    let confidence_score := qmean (preds.map (fun r => r.confidence_score))
    let rec_pair := calculate_recency_score df now 30
    let recency_score := rec_pair.1
    let trust_score : ℝ :=
      (wget weights "accuracy" : ℝ) * (accuracy : ℝ) +
        (wget weights "calibration" : ℝ) * (calibration_score : ℝ) +
        (wget weights "confidence" : ℝ) * (confidence_score : ℝ) +
        (wget weights "recency" : ℝ) * recency_score
    (⟨model_name, category, trust_score, accuracy, calibration_score, confidence_score,
      total_predictions, correct_predictions, brier_score, log_loss, weighted_accuracy,
      now⟩, rec_pair.2)

/-! ### Specification-side formulations

Definitions below restate, in the words of the specification, the bin
assignment of the calibration score and the recency weighting; the
claims compare them with the translations of the source above. -/

/-- Spec formulation of the bin assignment with `B = 10`: ten
equal-width bins over `[0,1]`, each closed-open, except the last one
which is closed on both ends; a probability on a boundary joins the
bin whose lower edge equals it and `1` joins the final bin;
out-of-range probabilities belong to no bin. -/
def binOf (p : ℚ) : Option ℕ :=
  if 0 ≤ p ∧ p < 1 then some (Int.toNat ⌊(10 : ℚ) * p⌋)
  else if p = 1 then some 9 else none

/-- The records assigned to bin `i` by the spec bin assignment. -/
def specBin (preds : List Pred) (i : ℕ) : List Pred :=
  preds.filter (fun r => binOf r.probability == some i)

/-- Spec formulation of the calibration score: for each non-empty bin,
`|empirical_frequency - mean_predicted_probability|` weighted by the
bin population, summed, divided by the total population, and turned
into a score via `max 0 (1 - error)`; empty input scores `0`. -/
def specCalibrationScore (preds : List Pred) : ℚ :=
  if preds.length = 0 then 0
  else
    let err : ℚ :=
      ((List.range 10).map (fun i =>
        let b := specBin preds i
        if b.length = 0 then 0
        else |qmean (b.map outcomeQ) - qmean (b.map (fun r => r.probability))| *
          (b.length : ℚ))).sum
    max 0 (1 - err / (preds.length : ℚ))

/-- Spec formulation of the recency score: discard records older than
`now - days`, return `0` when none survives, otherwise the
`exp (-days_since / days)`-weighted mean of `is_correct`. -/
noncomputable def specRecencyScore (rows : List Pred) (now : ℚ) (days : ℕ) : ℝ :=
  let recent := rows.filter (fun r => decide (now - (days : ℚ) ≤ r.created_at))
  if recent.length = 0 then 0
  else
    ((recent.map (fun r =>
        Real.exp (-((⌊now - r.created_at⌋ : ℝ) / (days : ℝ))) * (outcomeQ r : ℝ))).sum /
      (recent.map (fun r =>
        Real.exp (-((⌊now - r.created_at⌋ : ℝ) / (days : ℝ))))).sum)

/-! ### The leaderboard query

Model of `TrustMetricsCalculator.get_trust_leaderboard`: rows of the
`trust_scores` table joined with `model_performance` on `model_name`,
kept when the row's `calculation_date` equals the maximal
`calculation_date` among the model's snapshots whose category matches
the row's (any category when the row's category is SQL `NULL`), then —
when a category filter is supplied — when the row's category equals
the filter or is `NULL`; ordered by `trust_score` descending (the SQL
`ORDER BY` names no further sort key, so the order among ties is
unspecified; the model uses a stable sort) and truncated to `limit`. -/

/-- A row of the `trust_scores` table, with the columns the query reads. -/
structure TrustScoreRow where
  model_name : String
  category : Option String
  trust_score : ℚ
  calculation_date : ℕ
deriving DecidableEq

/-- A row of the `model_performance` table, with the columns the query reads. -/
structure ModelPerfRow where
  model_name : String
  total_predictions : ℕ
  accuracy : ℚ
  average_confidence : ℚ
deriving DecidableEq

/-- A result row of the leaderboard query, columns in `SELECT` order. -/
structure LeaderRow where
  model_name : String
  category : Option String
  trust_score : ℚ
  total_predictions : ℕ
  accuracy : ℚ
  average_confidence : ℚ
  calculation_date : ℕ
deriving DecidableEq

/-- The correlated subquery
`SELECT MAX(calculation_date) FROM trust_scores ts2 WHERE
ts2.model_name = ? AND (? IS NULL OR ts2.category = ?)`. -/
def latestMatchingDate (ts : List TrustScoreRow) (name : String)
    (cat : Option String) : ℕ :=
  ((ts.filter (fun t2 => t2.model_name == name &&
      (cat == (none : Option String) || t2.category == cat))).map
    (fun t2 => t2.calculation_date)).foldr max 0

/-- The optional filter `(ts.category = ? OR ts.category IS NULL)`. -/
def categoryKeep (cat : Option String) (rcat : Option String) : Bool :=
  match cat with
  | none => true
  | some c => rcat == some c || rcat == (none : Option String)

/-- One joined row of `trust_scores JOIN model_performance`. -/
def joinRow (t : TrustScoreRow) (m : ModelPerfRow) : LeaderRow :=
  ⟨t.model_name, t.category, t.trust_score, m.total_predictions, m.accuracy,
    m.average_confidence, t.calculation_date⟩

/-- The full `WHERE` clause of the leaderboard query, on a joined row. -/
def leaderboardKeep (ts : List TrustScoreRow) (cat : Option String)
    (r : LeaderRow) : Bool :=
  (r.calculation_date == latestMatchingDate ts r.model_name r.category) &&
    categoryKeep cat r.category

/-- Result-row comparison `ORDER BY ts.trust_score DESC`. -/
def leaderOrder (a b : LeaderRow) : Prop := b.trust_score ≤ a.trust_score

instance : DecidableRel leaderOrder := fun a b =>
  inferInstanceAs (Decidable (b.trust_score ≤ a.trust_score))

/-- The `FROM trust_scores ts JOIN model_performance mp ON
ts.model_name = mp.model_name` product. -/
def leaderboardJoined (ts : List TrustScoreRow) (mp : List ModelPerfRow) :
    List LeaderRow :=
  ts.flatMap (fun t =>
    (mp.filter (fun m => m.model_name == t.model_name)).map (joinRow t))

/-- Source `TrustMetricsCalculator.get_trust_leaderboard` over the two
joined tables: `WHERE`, then `ORDER BY trust_score DESC`, then
`LIMIT`. -/
def get_trust_leaderboard (ts : List TrustScoreRow) (mp : List ModelPerfRow)
    (category : Option String) (limit : ℕ) : List LeaderRow :=
  (List.insertionSort leaderOrder
    ((leaderboardJoined ts mp).filter (leaderboardKeep ts category))).take limit

/-! ### Helper lemmas: calibration bins -/


/-- Spec bin assignment, bins `0` to `8`: closed-open interval. -/
lemma binOf_eq_some_iff_lt {i : ℕ} (hi : i < 9) (p : ℚ) :
    binOf p = some i ↔ ((i : ℚ) / 10 ≤ p ∧ p < ((i : ℚ) + 1) / 10) := by
  unfold binOf
  by_cases h1 : 0 ≤ p ∧ p < 1
  · rw [if_pos h1, Option.some_inj]
    obtain ⟨hp0, hp1⟩ := h1
    have hnn : (0 : ℤ) ≤ ⌊(10 : ℚ) * p⌋ := Int.le_floor.mpr (by push_cast; nlinarith)
    constructor
    · intro h4
      have h5 : ⌊(10 : ℚ) * p⌋ = (i : ℤ) := by omega
      have h6 := h5 ▸ Int.floor_le ((10 : ℚ) * p)
      have h7 := h5 ▸ Int.lt_floor_add_one ((10 : ℚ) * p)
      push_cast at h6 h7
      constructor <;> linarith
    · rintro ⟨hlow, hhigh⟩
      have h6 : ⌊(10 : ℚ) * p⌋ = (i : ℤ) := by
        rw [Int.floor_eq_iff]
        push_cast
        constructor <;> nlinarith
      omega
  · rw [if_neg h1]
    by_cases h2 : p = 1
    · rw [if_pos h2]
      subst h2
      constructor
      · intro h
        have h3 : 9 = i := Option.some_inj.mp h
        omega
      · rintro ⟨hlow, hhigh⟩
        have h8 : (i : ℚ) + 1 ≤ 10 := by
          have h9 : (i : ℚ) ≤ 8 := by exact_mod_cast (by omega : i ≤ 8)
          linarith
        nlinarith
    · rw [if_neg h2]
      constructor
      · intro h
        exact absurd h (by simp)
      · rintro ⟨hlow, hhigh⟩
        push_neg at h1
        rcases lt_or_le p 0 with hneg | hpos
        · have h9 : (0 : ℚ) ≤ (i : ℚ) / 10 := by positivity
          linarith
        · have hgt1 : 1 < p := lt_of_le_of_ne (h1 hpos) (fun e => h2 e.symm)
          have h8 : (i : ℚ) + 1 ≤ 10 := by
            have h9 : (i : ℚ) ≤ 8 := by exact_mod_cast (by omega : i ≤ 8)
            linarith
          nlinarith

/-- Spec bin assignment, final bin: closed on both ends. -/
lemma binOf_eq_some_nine (p : ℚ) :
    binOf p = some 9 ↔ ((9 : ℚ) / 10 ≤ p ∧ p ≤ 1) := by
  unfold binOf
  by_cases h1 : 0 ≤ p ∧ p < 1
  · rw [if_pos h1, Option.some_inj]
    obtain ⟨hp0, hp1⟩ := h1
    have hnn : (0 : ℤ) ≤ ⌊(10 : ℚ) * p⌋ := Int.le_floor.mpr (by push_cast; nlinarith)
    constructor
    · intro h4
      have h5 : ⌊(10 : ℚ) * p⌋ = 9 := by omega
      have h6 := h5 ▸ Int.floor_le ((10 : ℚ) * p)
      push_cast at h6
      exact ⟨by linarith, le_of_lt hp1⟩
    · rintro ⟨hlow, _⟩
      have h6 : ⌊(10 : ℚ) * p⌋ = 9 := by
        rw [Int.floor_eq_iff]
        push_cast
        constructor <;> nlinarith
      omega
  · rw [if_neg h1]
    by_cases h2 : p = 1
    · rw [if_pos h2]
      subst h2
      norm_num
    · rw [if_neg h2]
      constructor
      · intro h
        exact absurd h (by simp)
      · rintro ⟨hlow, hhigh⟩
        push_neg at h1
        have hpos : 0 ≤ p := by linarith
        exact absurd (le_antisymm hhigh (h1 hpos)) h2

/-- Any bin index produced by the spec assignment is below 10. -/
lemma binOf_lt_ten {p : ℚ} {i : ℕ} (h : binOf p = some i) : i < 10 := by
  unfold binOf at h
  split_ifs at h with h1 h2
  · obtain ⟨hp0, hp1⟩ := h1
    have hfl : ⌊(10 : ℚ) * p⌋ < 10 := by
      rw [Int.floor_lt]
      push_cast
      nlinarith
    have h3 : (⌊(10 : ℚ) * p⌋).toNat = i := Option.some_inj.mp h
    omega
  · have h3 : (9 : ℕ) = i := Option.some_inj.mp h
    omega

/-- In-range probabilities land in some bin. -/
lemma binOf_isSome {p : ℚ} (h0 : 0 ≤ p) (h1 : p ≤ 1) : ∃ i, binOf p = some i := by
  unfold binOf
  by_cases hp : p < 1
  · exact ⟨_, if_pos ⟨h0, hp⟩⟩
  · have he : p = 1 := le_antisymm h1 (le_of_not_lt hp)
    refine ⟨9, ?_⟩
    rw [if_neg (by simp [he]), if_pos he]

/-- The loop mask of bin `i` agrees with the spec bin assignment. -/
lemma binMask_ten_eq {i : ℕ} (hi : i < 10) (p : ℚ) :
    binMask 10 i p = (binOf p == some i) := by
  rw [Bool.eq_iff_iff]
  simp only [binMask, Bool.and_eq_true, decide_eq_true_eq, beq_iff_eq]
  rcases Nat.lt_or_ge i 9 with h9 | h9
  · rw [if_neg (by omega : ¬ i = 10 - 1)]
    rw [binOf_eq_some_iff_lt h9 p]
    push_cast
    simp [decide_eq_true_eq]
  · have h9e : i = 9 := by omega
    subst h9e
    rw [if_pos (by norm_num)]
    rw [binOf_eq_some_nine p]
    push_cast
    norm_num



/-- Summing the indicator of one index over an index range. -/
lemma sum_indicator_range {j n : ℕ} (h : j < n) :
    ((List.range n).map (fun i => if j = i then (1 : ℕ) else 0)).sum = 1 := by
  induction n with
  | zero => omega
  | succ n ih =>
    rw [List.range_succ, List.map_append, List.sum_append]
    rcases Nat.lt_or_ge j n with hj | hj
    · rw [ih hj]
      simp [Nat.ne_of_lt hj]
    · have hje : j = n := by omega
      subst hje
      have hz : ((List.range j).map (fun i => if j = i then (1 : ℕ) else 0)).sum = 0 := by
        apply List.sum_eq_zero
        intro x hx
        obtain ⟨i, hi, rfl⟩ := List.mem_map.mp hx
        have := List.mem_range.mp hi
        simp [Nat.ne_of_gt this]
      rw [hz]
      simp

/-- Each in-range record is counted by exactly one spec bin. -/
lemma sum_specBin_lengths (preds : List Pred)
    (h : ∀ r ∈ preds, 0 ≤ r.probability ∧ r.probability ≤ 1) :
    ((List.range 10).map (fun i => (specBin preds i).length)).sum = preds.length := by
  induction preds with
  | nil => simp [specBin]
  | cons r t ih =>
    have hr := h r (List.mem_cons_self r t)
    have ht : ∀ x ∈ t, 0 ≤ x.probability ∧ x.probability ≤ 1 :=
      fun x hx => h x (List.mem_cons_of_mem r hx)
    obtain ⟨j, hj⟩ := binOf_isSome hr.1 hr.2
    have hsplit : ∀ i : ℕ, (specBin (r :: t) i).length =
        (if j = i then 1 else 0) + (specBin t i).length := by
      intro i
      rw [specBin, List.filter_cons]
      by_cases hij : j = i
      · rw [if_pos (by simp [hj, hij]), if_pos hij]
        simp [specBin]
        omega
      · rw [if_neg (by simp [hj, hij]), if_neg hij]
        simp [specBin]
    have : ((List.range 10).map (fun i => (specBin (r :: t) i).length)).sum =
        ((List.range 10).map (fun i => (if j = i then 1 else 0) + (specBin t i).length)).sum := by
      congr 1
      exact List.map_congr_left (fun i _ => hsplit i)
    rw [this, List.sum_map_add, ih ht, sum_indicator_range (binOf_lt_ten hj)]
    simp
    omega



/-- Skipping a bin (`continue`) contributes the same as adding zero. -/
lemma sum_filterMap_guard {α : Type} (l : List α) (c : α → Prop) [DecidablePred c]
    (e : α → ℚ) :
    (l.filterMap (fun a => if c a then none else some (e a))).sum =
      (l.map (fun a => if c a then 0 else e a)).sum := by
  induction l with
  | nil => rfl
  | cons a t ih =>
    rw [List.filterMap_cons, List.map_cons, List.sum_cons]
    by_cases hc : c a
    · simp only [if_pos hc]
      rw [ih]
      simp
    · simp only [if_neg hc]
      rw [List.sum_cons, ih]

/-- The calibration loop computes the specification formula on every
input whose probabilities are valid; in particular the binned
population equals the whole population. -/
lemma calibration_eq_spec (preds : List Pred)
    (h : ∀ r ∈ preds, 0 ≤ r.probability ∧ r.probability ≤ 1) :
    calculate_calibration_score preds 10 = specCalibrationScore preds := by
  by_cases hne : preds.length = 0
  · rw [calculate_calibration_score, specCalibrationScore, if_pos hne, if_pos hne]
  · rw [calculate_calibration_score, specCalibrationScore, if_neg hne, if_neg hne]
    have hfilters : ∀ i ∈ List.range 10,
        preds.filter (fun r => binMask 10 i r.probability) = specBin preds i := by
      intro i hi
      exact List.filter_congr (fun r _ => binMask_ten_eq (List.mem_range.mp hi) r.probability)
    have hw : ((List.range 10).map (fun i =>
        (preds.filter (fun r => binMask 10 i r.probability)).length)).sum = preds.length := by
      rw [List.map_congr_left (fun i hi => by rw [hfilters i hi])]
      exact sum_specBin_lengths preds h
    rw [hw, if_neg hne]
    have hnum : ((List.range 10).filterMap (fun i =>
        if (preds.filter (fun r => binMask 10 i r.probability)).length = 0 then none
        else some (|qmean ((preds.filter (fun r => binMask 10 i r.probability)).map outcomeQ) -
            qmean ((preds.filter (fun r => binMask 10 i r.probability)).map
              (fun r => r.probability))| *
          ((preds.filter (fun r => binMask 10 i r.probability)).length : ℚ)))).sum =
        ((List.range 10).map (fun i =>
          if (specBin preds i).length = 0 then 0
          else |qmean ((specBin preds i).map outcomeQ) -
              qmean ((specBin preds i).map (fun r => r.probability))| *
            ((specBin preds i).length : ℚ))).sum := by
      rw [sum_filterMap_guard]
      congr 1
      apply List.map_congr_left
      intro i hi
      rw [hfilters i hi]
    exact congrArg (fun s => max 0 (1 - s / (preds.length : ℚ))) hnum


/-! ### Helper lemmas: recency and the composite score -/

/-- The recency loop computes exactly the spec weighted mean. -/
lemma recency_eq_spec (rows : List Pred) (flag : Bool) (now : ℚ) (days : ℕ) :
    (calculate_recency_score ⟨rows, flag⟩ now days).1 = specRecencyScore rows now days := by
  rw [calculate_recency_score, specRecencyScore]
  rcases rows with _ | ⟨r, t⟩
  · simp
  · rw [if_neg (by simp)]
    dsimp only
    rw [apply_ite Prod.fst]

/-- Records older than the cutoff do not influence the recency score. -/
lemma recency_filter_eq (rows : List Pred) (flag : Bool) (now : ℚ) (days : ℕ) :
    (calculate_recency_score ⟨rows, flag⟩ now days).1 =
      (calculate_recency_score
        ⟨rows.filter (fun r => decide (now - (days : ℚ) ≤ r.created_at)), flag⟩ now days).1 := by
  rw [recency_eq_spec, recency_eq_spec, specRecencyScore, specRecencyScore,
    List.filter_filter]
  simp

/-- A frame whose every record is older than the cutoff scores `0`. -/
lemma recency_zero_of_old (rows : List Pred) (flag : Bool) (now : ℚ) (days : ℕ)
    (h : ∀ r ∈ rows, r.created_at < now - (days : ℚ)) :
    (calculate_recency_score ⟨rows, flag⟩ now days).1 = 0 := by
  rw [recency_eq_spec, specRecencyScore]
  have hf : rows.filter (fun r => decide (now - (days : ℚ) ≤ r.created_at)) = [] := by
    apply List.filter_eq_nil_iff.mpr
    intro r hr
    simpa using not_le.mpr (h r hr)
  rw [hf]
  simp

/-- A single record inside the window scores its own outcome: the
single exponential weight cancels. -/
lemma recency_singleton (r : Pred) (flag : Bool) (now : ℚ) (days : ℕ)
    (h : now - (days : ℚ) ≤ r.created_at) :
    (calculate_recency_score ⟨[r], flag⟩ now days).1 = (outcomeQ r : ℝ) := by
  rw [recency_eq_spec, specRecencyScore]
  have hf : [r].filter (fun x => decide (now - (days : ℚ) ≤ x.created_at)) = [r] := by
    simp only [List.filter_cons, List.filter_nil, decide_eq_true (by simpa using h : now - (days : ℚ) ≤ r.created_at)]
    rw [if_pos trivial]
  rw [hf]
  rw [if_neg (by simp)]
  simp only [List.map_cons, List.map_nil, List.sum_cons, List.sum_nil]
  rw [add_zero, add_zero, mul_comm, mul_div_assoc, div_self (Real.exp_ne_zero _), mul_one]

/-- The frame state after the recency computation: the rows are kept
and the dtype flag is set whenever the frame is non-empty. -/
lemma recency_frame_after (rows : List Pred) (flag : Bool) (now : ℚ) (days : ℕ) :
    (calculate_recency_score ⟨rows, flag⟩ now days).2 =
      if rows.length = 0 then ⟨rows, flag⟩ else ⟨rows, true⟩ := by
  rw [calculate_recency_score]
  by_cases h : rows.length = 0
  · rw [if_pos h, if_pos h]
  · rw [if_neg h, if_neg h]
    by_cases h2 : (rows.filter (fun r => decide (now - (days : ℚ) ≤ r.created_at))).length = 0
    · rw [if_pos h2]
    · rw [if_neg h2]

/-- Unfolding of the composite computation on a non-empty frame. -/
lemma calculate_trust_score_of_ne (name : String) (cat : Option String)
    (rows : List Pred) (flag : Bool) (w : WeightsDict) (now : ℚ) (h : rows ≠ []) :
    calculate_trust_score name cat ⟨rows, flag⟩ w now =
      (⟨name, cat,
        (wget w "accuracy" : ℝ) * (qmean (rows.map outcomeQ) : ℝ) +
          (wget w "calibration" : ℝ) * (calculate_calibration_score rows 10 : ℝ) +
          (wget w "confidence" : ℝ) * (qmean (rows.map (fun r => r.confidence_score)) : ℝ) +
          (wget w "recency" : ℝ) * (calculate_recency_score ⟨rows, flag⟩ now 30).1,
        qmean (rows.map outcomeQ),
        calculate_calibration_score rows 10,
        qmean (rows.map (fun r => r.confidence_score)),
        rows.length,
        (rows.filter (fun r => r.is_correct)).length,
        calculate_brier_score rows,
        calculate_log_loss rows,
        (rows.map (fun r => r.confidence_score * outcomeQ r)).sum /
          (rows.map (fun r => r.confidence_score)).sum,
        now⟩,
       (calculate_recency_score ⟨rows, flag⟩ now 30).2) := by
  rw [calculate_trust_score]
  rw [if_neg (by simpa using h)]

/-! ### Helper lemmas: bounds -/

/-- The mean of a list of values in `[0,1]` is in `[0,1]` (the empty
mean is `0` by rational division-by-zero convention). -/
lemma qmean_mem_unit (l : List ℚ) (h : ∀ x ∈ l, 0 ≤ x ∧ x ≤ 1) :
    0 ≤ qmean l ∧ qmean l ≤ 1 := by
  rcases l with _ | ⟨a, t⟩
  · constructor <;> norm_num [qmean]
  · have hlen : (0 : ℚ) < ((a :: t).length : ℚ) := by
      have hl : 0 < (a :: t).length := Nat.succ_pos _
      exact_mod_cast hl
    have hsum0 : (0 : ℚ) ≤ (a :: t).sum := List.sum_nonneg (fun x hx => (h x hx).1)
    have hsum1 : (a :: t).sum ≤ ((a :: t).length : ℚ) := by
      have := List.sum_le_card_nsmul (a :: t) 1 (fun x hx => (h x hx).2)
      simpa [nsmul_eq_mul] using this
    constructor
    · exact div_nonneg hsum0 (le_of_lt hlen)
    · rw [qmean, div_le_one hlen]
      exact hsum1

/-- Squared residuals of valid probabilities against 0/1 outcomes lie
in `[0,1]`. -/
lemma sq_residual_mem_unit (r : Pred) (h0 : 0 ≤ r.probability) (h1 : r.probability ≤ 1) :
    0 ≤ (r.probability - outcomeQ r) ^ 2 ∧ (r.probability - outcomeQ r) ^ 2 ≤ 1 := by
  refine ⟨sq_nonneg _, ?_⟩
  rw [outcomeQ]
  rcases r.is_correct with _ | _ <;> simp <;> rw [abs_le] <;> constructor <;> linarith

/-- On valid probabilities the Brier score is bounded by `[0,1]`. -/
lemma brier_mem_unit (preds : List Pred)
    (h : ∀ r ∈ preds, 0 ≤ r.probability ∧ r.probability ≤ 1) :
    0 ≤ calculate_brier_score preds ∧ calculate_brier_score preds ≤ 1 := by
  rw [calculate_brier_score]
  by_cases hne : preds.length = 0
  · rw [if_pos hne]
    norm_num
  · rw [if_neg hne]
    apply qmean_mem_unit
    intro x hx
    obtain ⟨r, hr, rfl⟩ := List.mem_map.mp hx
    exact sq_residual_mem_unit r (h r hr).1 (h r hr).2

/-! ### Claims -/

/-- C1: on an empty prediction set, `calculate_trust_score` returns —
for every model name, category, weight configuration, clock value and
column dtype — a snapshot with `accuracy = 0`, `calibration_score = 0`,
`confidence_score = 0`, `trust_score = 0` (hence recency contributes
`0`), `brier_score = 1`, `log_loss = +infinity`,
`total_predictions = 0` and `correct_predictions = 0`, without raising
and without touching the frame. -/
theorem claim_C1_empty_input_snapshot :
    ∀ (name : String) (cat : Option String) (w : WeightsDict) (now : ℚ) (flag : Bool),
      calculate_trust_score name cat ⟨[], flag⟩ w now =
        (⟨name, cat, 0, 0, 0, 0, 0, 0, 1, ⊤, 0, now⟩, ⟨[], flag⟩) := by
  intro name cat w now flag
  rfl

/-- C3 (counterexample): `update_weights` accepts a mapping missing
three of the four recognized keys (it sums to 1 on its own) and
changes the active configuration, and likewise accepts a mapping with
an unrecognized key and a negative weight — the claimed
`ConfigurationError` does not occur. -/
theorem claim_C3_counterexample :
    update_weights defaultWeights [("accuracy", 1)] =
        Except.ok [("accuracy", 1), ("calibration", 3/10), ("confidence", 1/5),
          ("recency", 1/10)] ∧
      ([("accuracy", (1 : ℚ)), ("calibration", 3/10), ("confidence", 1/5),
          ("recency", 1/10)] : WeightsDict) ≠ defaultWeights ∧
      update_weights defaultWeights [("accuracy", 2), ("frobnicate", -1)] =
        Except.ok [("accuracy", 2), ("calibration", 3/10), ("confidence", 1/5),
          ("recency", 1/10), ("frobnicate", -1)] := by
  have h1 : ("calibration" : String) ≠ "accuracy" := by decide
  have h2 : ("confidence" : String) ≠ "accuracy" := by decide
  have h3 : ("recency" : String) ≠ "accuracy" := by decide
  have h4 : ("accuracy" : String) ≠ "frobnicate" := by decide
  have h5 : ("calibration" : String) ≠ "frobnicate" := by decide
  have h6 : ("confidence" : String) ≠ "frobnicate" := by decide
  have h7 : ("recency" : String) ≠ "frobnicate" := by decide
  refine ⟨?_, ?_, ?_⟩
  · norm_num [update_weights, dictValuesSum, dictUpdate, dictSet, defaultWeights,
      h1, h2, h3, h4, h5, h6, h7]
  · norm_num [defaultWeights]
  · norm_num [update_weights, dictValuesSum, dictUpdate, dictSet, defaultWeights,
      h1, h2, h3, h4, h5, h6, h7]

/-- C3 (amended): `update_weights` validates only that the supplied
values sum to 1 within `1e-6`; on success the supplied mapping is
merged into the existing configuration via `dict.update`, otherwise a
`ValueError` is raised and the configuration is unchanged.  Missing
recognized keys, unrecognized keys and negative weights are all
accepted. -/
theorem claim_C3_sum_only_validation :
    ∀ cur new : WeightsDict,
      update_weights cur new =
        if |dictValuesSum new - 1| ≤ 1/1000000 then Except.ok (dictUpdate cur new)
        else Except.error "Weights must sum to 1.0" := by
  intro cur new
  rw [update_weights]
  rcases le_or_lt |dictValuesSum new - 1| (1/1000000) with h | h
  · rw [if_neg (not_lt.mpr h), if_pos h]
  · rw [if_pos h, if_neg (not_le.mpr h)]

/-- C4 (counterexample): probabilities are not clipped before the
Brier computation: a single record with source probability `2`
produces `brier_score = 4`, outside `[0,1]`. -/
theorem claim_C4_counterexample :
    calculate_brier_score [⟨2, false, 1, 0⟩] = 4 ∧
      ¬ calculate_brier_score [⟨2, false, 1, 0⟩] ≤ 1 := by
  have h : calculate_brier_score [⟨2, false, 1, 0⟩] = 4 := by
    norm_num [calculate_brier_score, qmean, outcomeQ]
  rw [h]
  norm_num

/-- C4 (amended): clipping happens only in the log-loss computation
(to `[1e-15, 1 - 1e-15]`); the Brier score uses the raw probabilities,
and it lies in `[0,1]` for every non-empty input whose source
probabilities lie in `[0,1]`. -/
theorem claim_C4_brier_range_on_valid_inputs :
    (∀ p : ℚ, 1/10 ^ 15 ≤ clipQ p ∧ clipQ p ≤ 1 - 1/10 ^ 15) ∧
    ∀ preds : List Pred, preds ≠ [] →
      (∀ r ∈ preds, 0 ≤ r.probability ∧ r.probability ≤ 1) →
      0 ≤ calculate_brier_score preds ∧ calculate_brier_score preds ≤ 1 := by
  constructor
  · intro p
    rw [clipQ]
    refine ⟨le_min (le_max_right _ _) (by norm_num), min_le_right _ _⟩
  · intro preds _ h
    exact brier_mem_unit preds h

/-- Witness for C4: the amended bound evaluated on a concrete
two-record history. -/
theorem claim_C4_witness :
    (([⟨7/10, true, 1, 0⟩, ⟨3/10, false, 1, 0⟩] : List Pred) ≠ []) ∧
      0 ≤ calculate_brier_score [⟨7/10, true, 1, 0⟩, ⟨3/10, false, 1, 0⟩] ∧
      calculate_brier_score [⟨7/10, true, 1, 0⟩, ⟨3/10, false, 1, 0⟩] ≤ 1 := by
  have hr : ∀ r ∈ ([⟨7/10, true, 1, 0⟩, ⟨3/10, false, 1, 0⟩] : List Pred),
      0 ≤ r.probability ∧ r.probability ≤ 1 := by
    intro r hr
    fin_cases hr <;> norm_num
  exact ⟨by simp, claim_C4_brier_range_on_valid_inputs.2 _ (by simp) hr⟩

/-- C5: the ten calibration bins are equal-width over `[0,1]` and
closed-open except the last, which is closed on both ends: each bin
boundary `i/10` belongs to bin `i` and probability `1` to bin `9`;
the empty input scores `0`; and on every input with valid
probabilities the loop computes exactly the specification formula —
population-weighted absolute calibration error over non-empty bins,
divided by the total population, scored as `max 0 (1 - error)`. -/
theorem claim_C5_calibration_binning :
    (∀ i : ℕ, i < 10 → binOf ((i : ℚ) / 10) = some i) ∧
    binOf 1 = some 9 ∧
    calculate_calibration_score [] 10 = 0 ∧
    ∀ preds : List Pred, (∀ r ∈ preds, 0 ≤ r.probability ∧ r.probability ≤ 1) →
      calculate_calibration_score preds 10 = specCalibrationScore preds := by
  refine ⟨?_, ?_, rfl, calibration_eq_spec⟩
  · intro i hi
    rcases Nat.lt_or_ge i 9 with h9 | h9
    · rw [binOf_eq_some_iff_lt h9]
      refine ⟨le_refl _, ?_⟩
      linarith
    · have h9e : i = 9 := by omega
      subst h9e
      rw [binOf_eq_some_nine]
      norm_num
  · rw [binOf_eq_some_nine]
    norm_num

/-- Witness for C5: boundary `3/10` lands in bin `3`, and the loop
equals the specification formula on a concrete two-record history. -/
theorem claim_C5_witness :
    binOf ((3 : ℚ) / 10) = some 3 ∧
      calculate_calibration_score [⟨7/10, true, 1, 0⟩, ⟨3/10, false, 1, 0⟩] 10 =
        specCalibrationScore [⟨7/10, true, 1, 0⟩, ⟨3/10, false, 1, 0⟩] := by
  have hr : ∀ r ∈ ([⟨7/10, true, 1, 0⟩, ⟨3/10, false, 1, 0⟩] : List Pred),
      0 ≤ r.probability ∧ r.probability ≤ 1 := by
    intro r hr
    fin_cases hr <;> norm_num
  exact ⟨claim_C5_calibration_binning.1 3 (by norm_num),
    claim_C5_calibration_binning.2.2.2 _ hr⟩

/-- C7: the recency computation discards records older than
`now - days`; a non-empty history made only of such records scores `0`
regardless of its accuracy; and on every frame the score equals the
spec formulation — the `exp (-days_since / days)`-weighted mean of
`is_correct` over the surviving records, `0` when none survives. -/
theorem claim_C7_recency_spec :
    (∀ (rows : List Pred) (flag : Bool) (now : ℚ) (days : ℕ),
      (calculate_recency_score ⟨rows, flag⟩ now days).1 =
        (calculate_recency_score
          ⟨rows.filter (fun r => decide (now - (days : ℚ) ≤ r.created_at)), flag⟩ now days).1) ∧
    (∀ (rows : List Pred) (flag : Bool) (now : ℚ) (days : ℕ),
      (∀ r ∈ rows, r.created_at < now - (days : ℚ)) →
      (calculate_recency_score ⟨rows, flag⟩ now days).1 = 0) ∧
    (∀ (rows : List Pred) (flag : Bool) (now : ℚ) (days : ℕ),
      (calculate_recency_score ⟨rows, flag⟩ now days).1 = specRecencyScore rows now days) :=
  ⟨recency_filter_eq, recency_zero_of_old, recency_eq_spec⟩

/-- Witness for C7: an all-correct history 70 days old scores `0`
through a 30-day window at day 100. -/
theorem claim_C7_witness :
    (∀ r ∈ ([⟨1/2, true, 1, 30⟩] : List Pred), r.created_at < (100 : ℚ) - ((30 : ℕ) : ℚ)) ∧
      (calculate_recency_score ⟨[⟨1/2, true, 1, 30⟩], false⟩ 100 30).1 = 0 := by
  have hr : ∀ r ∈ ([⟨1/2, true, 1, 30⟩] : List Pred),
      r.created_at < (100 : ℚ) - ((30 : ℕ) : ℚ) := by
    intro r hr
    fin_cases hr
    norm_num
  exact ⟨hr, claim_C7_recency_spec.2.1 _ false 100 30 hr⟩

/-- C8 (counterexample): the computation mutates its input frame: on a
non-empty frame whose `created_at` column is not yet datetime-typed,
the column is converted in place, so the frame after the call differs
from the frame before it. -/
theorem claim_C8_counterexample :
    (calculate_trust_score "M" none ⟨[⟨1/2, true, 1, 0⟩], false⟩ defaultWeights 0).2 =
        ⟨[⟨1/2, true, 1, 0⟩], true⟩ ∧
      (⟨[⟨1/2, true, 1, 0⟩], true⟩ : DataFrame) ≠ ⟨[⟨1/2, true, 1, 0⟩], false⟩ := by
  constructor
  · rw [calculate_trust_score_of_ne _ _ _ _ _ _ (by simp)]
    dsimp only
    rw [recency_frame_after]
    rw [if_neg (by simp)]
  · simp

/-- C8 (amended): the computation writes no stored state and keeps the
prediction rows intact, and a frame whose `created_at` column is
already datetime-typed (or which is empty) comes back unchanged; but a
non-empty frame with a non-datetime column is mutated in place — only
its dtype flag changes. -/
theorem claim_C8_frame_effect :
    ∀ (name : String) (cat : Option String) (rows : List Pred) (flag : Bool)
      (w : WeightsDict) (now : ℚ),
      ((calculate_trust_score name cat ⟨rows, flag⟩ w now).2.rows = rows) ∧
      ((calculate_trust_score name cat ⟨rows, true⟩ w now).2 = ⟨rows, true⟩) ∧
      (rows = [] → (calculate_trust_score name cat ⟨rows, flag⟩ w now).2 = ⟨rows, flag⟩) := by
  intro name cat rows flag w now
  refine ⟨?_, ?_, ?_⟩
  · rcases eq_or_ne rows [] with rfl | h
    · rfl
    · rw [calculate_trust_score_of_ne name cat rows flag w now h]
      dsimp only
      rw [recency_frame_after]
      split_ifs <;> rfl
  · rcases eq_or_ne rows [] with rfl | h
    · rfl
    · rw [calculate_trust_score_of_ne name cat rows true w now h]
      dsimp only
      rw [recency_frame_after]
      split_ifs <;> rfl
  · rintro rfl
    rfl

/-- Witness for C8: the empty frame comes back exactly as supplied. -/
theorem claim_C8_witness :
    (([] : List Pred) = []) ∧
      (calculate_trust_score "M" none ⟨[], false⟩ defaultWeights 0).2 = ⟨[], false⟩ :=
  ⟨rfl, (claim_C8_frame_effect "M" none [] false defaultWeights 0).2.2 rfl⟩

/-! ### Helper lemmas: weight lookups and concrete evaluations -/

/-- Lookup on a cons cell of the weights dictionary. -/
lemma wget_cons (k k2 : String) (v : ℚ) (d : WeightsDict) :
    wget ((k2, v) :: d) k = if k2 = k then v else wget d k := by
  rw [wget, dictLookup, List.find?_cons]
  by_cases h : k2 = k
  · simp [h]
  · have hb : (k2 == k) = false := beq_eq_false_iff_ne.mpr h
    have hb2 : (((k2, v) : String × ℚ).1 == k) = false := hb
    rw [hb2, if_neg h]
    rfl

/-- A single perfect, fully-confident, in-window prediction gives every
sub-score the value `1`, so the composite reduces to the sum of the
four weights scaled by the recency score. -/
lemma trust_eval_perfect (name : String) (cat : Option String) (flag : Bool)
    (w : WeightsDict) (now : ℚ) :
    (calculate_trust_score name cat ⟨[⟨1, true, 1, 0⟩], flag⟩ w now).1.trust_score =
      (wget w "accuracy" : ℝ) + (wget w "calibration" : ℝ) + (wget w "confidence" : ℝ) +
        (wget w "recency" : ℝ) *
          (calculate_recency_score ⟨[⟨1, true, 1, 0⟩], flag⟩ now 30).1 := by
  rw [calculate_trust_score_of_ne _ _ _ _ _ _ (by simp)]
  dsimp only
  have hacc : qmean (List.map outcomeQ [⟨1, true, 1, 0⟩]) = 1 := by
    norm_num [qmean, outcomeQ]
  have hcal : calculate_calibration_score [⟨1, true, 1, 0⟩] 10 = 1 := by
    norm_num [calculate_calibration_score, binMask, qmean, outcomeQ, List.range_succ,
      List.filterMap]
  have hconf : qmean (List.map (fun r => r.confidence_score)
      ([⟨1, true, 1, 0⟩] : List Pred)) = 1 := by
    norm_num [qmean]
  rw [hacc, hcal, hconf]
  push_cast
  ring

/-- The configuration produced by merging `{"accuracy": 1.0}` into the
default weights. -/
def mergedWeights : WeightsDict :=
  [("accuracy", 1), ("calibration", 3/10), ("confidence", 1/5), ("recency", 1/10)]

/-- A weight configuration that sums to `1` while containing a
negative entry. -/
def badWeights : WeightsDict :=
  [("accuracy", 2), ("calibration", -1), ("confidence", 0), ("recency", 0)]

/-- The four lookups on the default configuration. -/
lemma wget_defaultWeights :
    wget defaultWeights "accuracy" = 2/5 ∧ wget defaultWeights "calibration" = 3/10 ∧
      wget defaultWeights "confidence" = 1/5 ∧ wget defaultWeights "recency" = 1/10 := by
  refine ⟨?_, ?_, ?_, ?_⟩
  · rw [defaultWeights, wget_cons, if_pos rfl]
  · rw [defaultWeights, wget_cons, if_neg (by decide), wget_cons, if_pos rfl]
  · rw [defaultWeights, wget_cons, if_neg (by decide), wget_cons, if_neg (by decide),
      wget_cons, if_pos rfl]
  · rw [defaultWeights, wget_cons, if_neg (by decide), wget_cons, if_neg (by decide),
      wget_cons, if_neg (by decide), wget_cons, if_pos rfl]

/-- The four lookups on the merged configuration. -/
lemma wget_mergedWeights :
    wget mergedWeights "accuracy" = 1 ∧ wget mergedWeights "calibration" = 3/10 ∧
      wget mergedWeights "confidence" = 1/5 ∧ wget mergedWeights "recency" = 1/10 := by
  refine ⟨?_, ?_, ?_, ?_⟩
  · rw [mergedWeights, wget_cons, if_pos rfl]
  · rw [mergedWeights, wget_cons, if_neg (by decide), wget_cons, if_pos rfl]
  · rw [mergedWeights, wget_cons, if_neg (by decide), wget_cons, if_neg (by decide),
      wget_cons, if_pos rfl]
  · rw [mergedWeights, wget_cons, if_neg (by decide), wget_cons, if_neg (by decide),
      wget_cons, if_neg (by decide), wget_cons, if_pos rfl]

/-- The four lookups on the negative-entry configuration. -/
lemma wget_badWeights :
    wget badWeights "accuracy" = 2 ∧ wget badWeights "calibration" = -1 ∧
      wget badWeights "confidence" = 0 ∧ wget badWeights "recency" = 0 := by
  refine ⟨?_, ?_, ?_, ?_⟩
  · rw [badWeights, wget_cons, if_pos rfl]
  · rw [badWeights, wget_cons, if_neg (by decide), wget_cons, if_pos rfl]
  · rw [badWeights, wget_cons, if_neg (by decide), wget_cons, if_neg (by decide),
      wget_cons, if_pos rfl]
  · rw [badWeights, wget_cons, if_neg (by decide), wget_cons, if_neg (by decide),
      wget_cons, if_neg (by decide), wget_cons, if_pos rfl]

/-- The perfect single prediction taken at a clock inside its window
scores recency `1`. -/
lemma recency_perfect_at (flag : Bool) (now : ℚ) (h : now - 30 ≤ 0) :
    (calculate_recency_score ⟨[⟨1, true, 1, 0⟩], flag⟩ now 30).1 = 1 := by
  rw [recency_singleton _ _ _ _ (by push_cast; linarith)]
  norm_num [outcomeQ]

/-- C10: `update_weights` with the valid-on-its-own mapping
`{"accuracy": 1.0}` succeeds and merges into the default
configuration, whose weights then sum to `8/5`, not `1`; a subsequent
trust score computed under the merged configuration reaches `8/5 > 1`. -/
theorem claim_C10_merge_breaks_invariant :
    update_weights defaultWeights [("accuracy", 1)] = Except.ok mergedWeights ∧
      dictValuesSum mergedWeights = 8/5 ∧
      ¬ dictValuesSum mergedWeights = 1 ∧
      (calculate_trust_score "M" none ⟨[⟨1, true, 1, 0⟩], true⟩
          mergedWeights 0).1.trust_score = 8/5 ∧
      ¬ (calculate_trust_score "M" none ⟨[⟨1, true, 1, 0⟩], true⟩
          mergedWeights 0).1.trust_score ≤ 1 := by
  have h1 : ("calibration" : String) ≠ "accuracy" := by decide
  have h2 : ("confidence" : String) ≠ "accuracy" := by decide
  have h3 : ("recency" : String) ≠ "accuracy" := by decide
  obtain ⟨wa, wb, wc, wd⟩ := wget_mergedWeights
  have hv : (calculate_trust_score "M" none ⟨[⟨1, true, 1, 0⟩], true⟩
      mergedWeights 0).1.trust_score = 8/5 := by
    rw [trust_eval_perfect, recency_perfect_at true 0 (by norm_num), wa, wb, wc, wd]
    norm_num
  refine ⟨?_, ?_, ?_, hv, ?_⟩
  · norm_num [update_weights, dictValuesSum, dictUpdate, dictSet, defaultWeights,
      mergedWeights, h1, h2, h3]
  · norm_num [dictValuesSum, mergedWeights]
  · norm_num [dictValuesSum, mergedWeights]
  · rw [hv]
    norm_num

/-- C9 (counterexample): with a fixed one-prediction history
(`created_at` day 0) and the default weights, a run at day 0 yields
`trust_score = 1` while a run at day 40 yields `trust_score = 9/10`:
identical inputs, different clock, different trust score — the outputs
differ beyond `calculation_date`. -/
theorem claim_C9_counterexample :
    (calculate_trust_score "M" none ⟨[⟨1, true, 1, 0⟩], true⟩
        defaultWeights 0).1.trust_score = 1 ∧
      (calculate_trust_score "M" none ⟨[⟨1, true, 1, 0⟩], true⟩
          defaultWeights 40).1.trust_score = 9/10 ∧
      ¬ ((calculate_trust_score "M" none ⟨[⟨1, true, 1, 0⟩], true⟩
            defaultWeights 0).1.trust_score =
          (calculate_trust_score "M" none ⟨[⟨1, true, 1, 0⟩], true⟩
            defaultWeights 40).1.trust_score) := by
  obtain ⟨wa, wb, wc, wd⟩ := wget_defaultWeights
  have h0 : (calculate_trust_score "M" none ⟨[⟨1, true, 1, 0⟩], true⟩
      defaultWeights 0).1.trust_score = 1 := by
    rw [trust_eval_perfect, recency_perfect_at true 0 (by norm_num), wa, wb, wc, wd]
    norm_num
  have h40 : (calculate_trust_score "M" none ⟨[⟨1, true, 1, 0⟩], true⟩
      defaultWeights 40).1.trust_score = 9/10 := by
    have hrec : (calculate_recency_score ⟨[⟨1, true, 1, 0⟩], true⟩ 40 30).1 = 0 := by
      apply recency_zero_of_old
      intro r hr
      fin_cases hr
      push_cast
      norm_num
    rw [trust_eval_perfect, hrec, wa, wb, wc, wd]
    norm_num
  refine ⟨h0, h40, ?_⟩
  rw [h0, h40]
  norm_num

/-- C9 (amended): the computation is a pure function of the
predictions, the weights and the clock: with the clock fixed, two runs
agree exactly; across different clock values every reported field
except `trust_score` and `calculation_date` — accuracy, calibration,
confidence, Brier score, log loss, weighted accuracy and both counts —
is bit-for-bit identical (they do not read the clock), while the
`trust_score` difference is exactly the recency weight times the
difference of the clock-dependent recency scores. -/
theorem claim_C9_subscores_clock_free :
    ∀ (name₁ name₂ : String) (cat₁ cat₂ : Option String) (rows : List Pred) (flag : Bool)
      (w : WeightsDict) (now₁ now₂ : ℚ),
      ((calculate_trust_score name₁ cat₁ ⟨rows, flag⟩ w now₁).1.accuracy =
        (calculate_trust_score name₂ cat₂ ⟨rows, flag⟩ w now₂).1.accuracy) ∧
      ((calculate_trust_score name₁ cat₁ ⟨rows, flag⟩ w now₁).1.calibration_score =
        (calculate_trust_score name₂ cat₂ ⟨rows, flag⟩ w now₂).1.calibration_score) ∧
      ((calculate_trust_score name₁ cat₁ ⟨rows, flag⟩ w now₁).1.confidence_score =
        (calculate_trust_score name₂ cat₂ ⟨rows, flag⟩ w now₂).1.confidence_score) ∧
      ((calculate_trust_score name₁ cat₁ ⟨rows, flag⟩ w now₁).1.brier_score =
        (calculate_trust_score name₂ cat₂ ⟨rows, flag⟩ w now₂).1.brier_score) ∧
      ((calculate_trust_score name₁ cat₁ ⟨rows, flag⟩ w now₁).1.log_loss =
        (calculate_trust_score name₂ cat₂ ⟨rows, flag⟩ w now₂).1.log_loss) ∧
      ((calculate_trust_score name₁ cat₁ ⟨rows, flag⟩ w now₁).1.weighted_accuracy =
        (calculate_trust_score name₂ cat₂ ⟨rows, flag⟩ w now₂).1.weighted_accuracy) ∧
      ((calculate_trust_score name₁ cat₁ ⟨rows, flag⟩ w now₁).1.total_predictions =
        (calculate_trust_score name₂ cat₂ ⟨rows, flag⟩ w now₂).1.total_predictions) ∧
      ((calculate_trust_score name₁ cat₁ ⟨rows, flag⟩ w now₁).1.correct_predictions =
        (calculate_trust_score name₂ cat₂ ⟨rows, flag⟩ w now₂).1.correct_predictions) ∧
      ((calculate_trust_score name₁ cat₁ ⟨rows, flag⟩ w now₁).1.trust_score -
          (calculate_trust_score name₂ cat₂ ⟨rows, flag⟩ w now₂).1.trust_score =
        (wget w "recency" : ℝ) *
          ((calculate_recency_score ⟨rows, flag⟩ now₁ 30).1 -
            (calculate_recency_score ⟨rows, flag⟩ now₂ 30).1)) := by
  intro name₁ name₂ cat₁ cat₂ rows flag w now₁ now₂
  rcases eq_or_ne rows [] with rfl | h
  · refine ⟨rfl, rfl, rfl, rfl, rfl, rfl, rfl, rfl, ?_⟩
    show (0 : ℝ) - 0 = (wget w "recency" : ℝ) * ((0 : ℝ) - 0)
    ring
  · rw [calculate_trust_score_of_ne name₁ cat₁ rows flag w now₁ h,
      calculate_trust_score_of_ne name₂ cat₂ rows flag w now₂ h]
    refine ⟨rfl, rfl, rfl, rfl, rfl, rfl, rfl, rfl, ?_⟩
    dsimp only
    ring

/-- C2 (counterexample): the code never validates non-negativity, so a
weight configuration may sum to `1` while containing a negative entry;
with every sub-score inside `[0,1]` the composite can still leave
`[0,1]`: under `badWeights` a single correct zero-probability
prediction has sub-scores `(1, 0, 1/2, 1)` yet `trust_score = 2`. -/
theorem claim_C2_counterexample :
    dictValuesSum badWeights = 1 ∧
      (0 ≤ (calculate_trust_score "M" none ⟨[⟨0, true, 1/2, 0⟩], true⟩
          badWeights 0).1.accuracy ∧
        (calculate_trust_score "M" none ⟨[⟨0, true, 1/2, 0⟩], true⟩
          badWeights 0).1.accuracy ≤ 1) ∧
      (0 ≤ (calculate_trust_score "M" none ⟨[⟨0, true, 1/2, 0⟩], true⟩
          badWeights 0).1.calibration_score ∧
        (calculate_trust_score "M" none ⟨[⟨0, true, 1/2, 0⟩], true⟩
          badWeights 0).1.calibration_score ≤ 1) ∧
      (0 ≤ (calculate_trust_score "M" none ⟨[⟨0, true, 1/2, 0⟩], true⟩
          badWeights 0).1.confidence_score ∧
        (calculate_trust_score "M" none ⟨[⟨0, true, 1/2, 0⟩], true⟩
          badWeights 0).1.confidence_score ≤ 1) ∧
      (0 ≤ (calculate_recency_score ⟨[⟨0, true, 1/2, 0⟩], true⟩ 0 30).1 ∧
        (calculate_recency_score ⟨[⟨0, true, 1/2, 0⟩], true⟩ 0 30).1 ≤ 1) ∧
      (calculate_trust_score "M" none ⟨[⟨0, true, 1/2, 0⟩], true⟩
          badWeights 0).1.trust_score = 2 ∧
      ¬ (calculate_trust_score "M" none ⟨[⟨0, true, 1/2, 0⟩], true⟩
          badWeights 0).1.trust_score ≤ 1 := by
  obtain ⟨wa, wb, wc, wd⟩ := wget_badWeights
  have hne : ([⟨0, true, 1/2, 0⟩] : List Pred) ≠ [] := by simp
  have hrec : (calculate_recency_score ⟨[⟨0, true, 1/2, 0⟩], true⟩ 0 30).1 = 1 := by
    rw [recency_singleton _ _ _ _ (by push_cast; norm_num)]
    norm_num [outcomeQ]
  rw [calculate_trust_score_of_ne _ _ _ _ _ _ hne]
  dsimp only
  have hacc : qmean (List.map outcomeQ [⟨0, true, 1/2, 0⟩]) = 1 := by
    norm_num [qmean, outcomeQ]
  have hcal : calculate_calibration_score [⟨0, true, 1/2, 0⟩] 10 = 0 := by
    norm_num [calculate_calibration_score, binMask, qmean, outcomeQ, List.range_succ,
      List.filterMap]
  have hconf : qmean (List.map (fun r => r.confidence_score)
      ([⟨0, true, 1/2, 0⟩] : List Pred)) = 1/2 := by
    norm_num [qmean]
  rw [hacc, hcal, hconf, hrec, wa, wb, wc, wd]
  refine ⟨by norm_num [dictValuesSum, badWeights], by norm_num, by norm_num, by norm_num,
    by norm_num, ?_, ?_⟩
  · push_cast
    ring
  · push_cast
    norm_num

/-- C2 (amended): on every non-empty input the composite equals the
weighted linear combination of the four sub-scores, with the accuracy
term the plain unweighted mean of `is_correct` (the confidence-weighted
`weighted_accuracy` diagnostic never enters it); and whenever the four
weights are non-negative, sum to `1`, and each sub-score lies in
`[0,1]`, the trust score lies in `[0,1]`.  (Non-negativity is
necessary: the code accepts weight configurations that sum to `1` with
negative entries, under which the composite can leave `[0,1]`.) -/
theorem claim_C2_trust_formula_and_range :
    ∀ (name : String) (cat : Option String) (rows : List Pred) (flag : Bool)
      (w : WeightsDict) (now : ℚ), rows ≠ [] →
      ((calculate_trust_score name cat ⟨rows, flag⟩ w now).1.trust_score =
          (wget w "accuracy" : ℝ) * (qmean (rows.map outcomeQ) : ℝ) +
            (wget w "calibration" : ℝ) * (calculate_calibration_score rows 10 : ℝ) +
            (wget w "confidence" : ℝ) *
              (qmean (rows.map (fun r => r.confidence_score)) : ℝ) +
            (wget w "recency" : ℝ) * (calculate_recency_score ⟨rows, flag⟩ now 30).1) ∧
      ((calculate_trust_score name cat ⟨rows, flag⟩ w now).1.accuracy =
          qmean (rows.map outcomeQ)) ∧
      ((calculate_trust_score name cat ⟨rows, flag⟩ w now).1.weighted_accuracy =
          (rows.map (fun r => r.confidence_score * outcomeQ r)).sum /
            (rows.map (fun r => r.confidence_score)).sum) ∧
      (0 ≤ wget w "accuracy" → 0 ≤ wget w "calibration" → 0 ≤ wget w "confidence" →
        0 ≤ wget w "recency" →
        wget w "accuracy" + wget w "calibration" + wget w "confidence" +
            wget w "recency" = 1 →
        0 ≤ qmean (rows.map outcomeQ) → qmean (rows.map outcomeQ) ≤ 1 →
        0 ≤ calculate_calibration_score rows 10 → calculate_calibration_score rows 10 ≤ 1 →
        0 ≤ qmean (rows.map (fun r => r.confidence_score)) →
        qmean (rows.map (fun r => r.confidence_score)) ≤ 1 →
        0 ≤ (calculate_recency_score ⟨rows, flag⟩ now 30).1 →
        (calculate_recency_score ⟨rows, flag⟩ now 30).1 ≤ 1 →
        0 ≤ (calculate_trust_score name cat ⟨rows, flag⟩ w now).1.trust_score ∧
          (calculate_trust_score name cat ⟨rows, flag⟩ w now).1.trust_score ≤ 1) := by
  intro name cat rows flag w now h
  rw [calculate_trust_score_of_ne name cat rows flag w now h]
  dsimp only
  refine ⟨rfl, rfl, rfl, ?_⟩
  intro ha hb hc hd hsum s1a s1b s2a s2b s3a s3b s4a s4b
  have haR : (0 : ℝ) ≤ (wget w "accuracy" : ℝ) := by exact_mod_cast ha
  have hbR : (0 : ℝ) ≤ (wget w "calibration" : ℝ) := by exact_mod_cast hb
  have hcR : (0 : ℝ) ≤ (wget w "confidence" : ℝ) := by exact_mod_cast hc
  have hdR : (0 : ℝ) ≤ (wget w "recency" : ℝ) := by exact_mod_cast hd
  have hsumR : (wget w "accuracy" : ℝ) + (wget w "calibration" : ℝ) +
      (wget w "confidence" : ℝ) + (wget w "recency" : ℝ) = 1 := by exact_mod_cast hsum
  have s1aR : (0 : ℝ) ≤ (qmean (rows.map outcomeQ) : ℝ) := by exact_mod_cast s1a
  have s1bR : (qmean (rows.map outcomeQ) : ℝ) ≤ 1 := by exact_mod_cast s1b
  have s2aR : (0 : ℝ) ≤ (calculate_calibration_score rows 10 : ℝ) := by exact_mod_cast s2a
  have s2bR : (calculate_calibration_score rows 10 : ℝ) ≤ 1 := by exact_mod_cast s2b
  have s3aR : (0 : ℝ) ≤ (qmean (rows.map (fun r => r.confidence_score)) : ℝ) := by
    exact_mod_cast s3a
  have s3bR : (qmean (rows.map (fun r => r.confidence_score)) : ℝ) ≤ 1 := by
    exact_mod_cast s3b
  constructor
  · have t1 := mul_nonneg haR s1aR
    have t2 := mul_nonneg hbR s2aR
    have t3 := mul_nonneg hcR s3aR
    have t4 := mul_nonneg hdR s4a
    linarith
  · have u1 := mul_le_of_le_one_right haR s1bR
    have u2 := mul_le_of_le_one_right hbR s2bR
    have u3 := mul_le_of_le_one_right hcR s3bR
    have u4 := mul_le_of_le_one_right hdR s4b
    linarith

/-- Witness for C2: the formula and range bound instantiated on a
single perfect prediction under the default weights: the trust score
is within `[0,1]`. -/
theorem claim_C2_witness :
    0 ≤ (calculate_trust_score "M" none ⟨[⟨1, true, 1, 0⟩], true⟩
        defaultWeights 0).1.trust_score ∧
      (calculate_trust_score "M" none ⟨[⟨1, true, 1, 0⟩], true⟩
        defaultWeights 0).1.trust_score ≤ 1 := by
  obtain ⟨wa, wb, wc, wd⟩ := wget_defaultWeights
  have hacc : qmean (List.map outcomeQ [⟨1, true, 1, 0⟩]) = 1 := by
    norm_num [qmean, outcomeQ]
  have hcal : calculate_calibration_score [⟨1, true, 1, 0⟩] 10 = 1 := by
    norm_num [calculate_calibration_score, binMask, qmean, outcomeQ, List.range_succ,
      List.filterMap]
  have hconf : qmean (List.map (fun r => r.confidence_score)
      ([⟨1, true, 1, 0⟩] : List Pred)) = 1 := by
    norm_num [qmean]
  have hrec : (calculate_recency_score ⟨[⟨1, true, 1, 0⟩], true⟩ 0 30).1 = 1 :=
    recency_perfect_at true 0 (by norm_num)
  exact (claim_C2_trust_formula_and_range "M" none [⟨1, true, 1, 0⟩] true
      defaultWeights 0 (by simp)).2.2.2
    (by rw [wa]; norm_num) (by rw [wb]; norm_num) (by rw [wc]; norm_num)
    (by rw [wd]; norm_num) (by rw [wa, wb, wc, wd]; norm_num)
    (by rw [hacc]; norm_num) (by rw [hacc]) (by rw [hcal]; norm_num) (by rw [hcal])
    (by rw [hconf]; norm_num) (by rw [hconf]) (by rw [hrec]; norm_num)
    (by rw [hrec])

instance : IsTotal LeaderRow leaderOrder :=
  ⟨fun a b => le_total b.trust_score a.trust_score⟩

instance : IsTrans LeaderRow leaderOrder :=
  ⟨fun _ _ _ hab hbc => le_trans hbc hab⟩

/-- C6 (counterexample): the query does not select one snapshot per
model: with a `sports` snapshot at date 1 and a null-category snapshot
at date 2 for the same model `M`, filtering on `sports` returns both
rows — each passes the correlated latest-date subquery in its own
category scope. -/
theorem claim_C6_counterexample :
    (get_trust_leaderboard
        [⟨"M", some "sports", 1/2, 1⟩, ⟨"M", none, 9/10, 2⟩]
        [⟨"M", 10, 1/2, 1/2⟩] (some "sports") 50).map (fun r => r.model_name) =
      ["M", "M"] := by
  norm_num [get_trust_leaderboard, leaderboardJoined, leaderboardKeep, latestMatchingDate,
    categoryKeep, joinRow, List.insertionSort, List.orderedInsert, leaderOrder,
    List.filter, List.flatMap]

/-- C6 (amended): the leaderboard output is sorted by `trust_score`
descending (the SQL imposes no further tie-break key), holds at most
`limit` rows, and consists exactly of the joined rows whose
`calculation_date` is maximal among the model's snapshots in the
row's category scope (all of the model's snapshots when the row's
category is null) and which pass the optional category filter
(category equal to the filter or null); a model can contribute several
rows.  When the kept rows fit inside `limit`, membership in the output
coincides with membership among the kept rows. -/
theorem claim_C6_leaderboard_properties :
    ∀ (ts : List TrustScoreRow) (mp : List ModelPerfRow) (cat : Option String) (lim : ℕ),
      List.Sorted leaderOrder (get_trust_leaderboard ts mp cat lim) ∧
      (get_trust_leaderboard ts mp cat lim).length ≤ lim ∧
      (∀ r ∈ get_trust_leaderboard ts mp cat lim, leaderboardKeep ts cat r = true) ∧
      (∀ r ∈ get_trust_leaderboard ts mp cat lim, r ∈ leaderboardJoined ts mp) ∧
      (∀ r : LeaderRow,
        ((leaderboardJoined ts mp).filter (leaderboardKeep ts cat)).length ≤ lim →
        (r ∈ get_trust_leaderboard ts mp cat lim ↔
          r ∈ (leaderboardJoined ts mp).filter (leaderboardKeep ts cat))) := by
  intro ts mp cat lim
  refine ⟨?_, ?_, ?_, ?_, ?_⟩
  · exact List.Pairwise.sublist (List.take_sublist _ _)
      (List.sorted_insertionSort leaderOrder _)
  · rw [get_trust_leaderboard]
    simp [List.length_take]
  · intro r hr
    have hr2 : r ∈ List.insertionSort leaderOrder
        ((leaderboardJoined ts mp).filter (leaderboardKeep ts cat)) :=
      (List.take_sublist _ _).mem hr
    have hr3 := (List.perm_insertionSort leaderOrder _).mem_iff.mp hr2
    exact (List.mem_filter.mp hr3).2
  · intro r hr
    have hr2 : r ∈ List.insertionSort leaderOrder
        ((leaderboardJoined ts mp).filter (leaderboardKeep ts cat)) :=
      (List.take_sublist _ _).mem hr
    have hr3 := (List.perm_insertionSort leaderOrder _).mem_iff.mp hr2
    exact (List.mem_filter.mp hr3).1
  · intro r hlen
    have hlen2 : (List.insertionSort leaderOrder
        ((leaderboardJoined ts mp).filter (leaderboardKeep ts cat))).length ≤ lim := by
      rw [(List.perm_insertionSort leaderOrder _).length_eq]
      exact hlen
    rw [get_trust_leaderboard, List.take_of_length_le hlen2]
    exact (List.perm_insertionSort leaderOrder _).mem_iff

/-- Witness for C6: on the two-snapshot store, the top returned row is
a kept joined row, and with `limit = 50` the output coincides with the
kept rows. -/
theorem claim_C6_witness :
    leaderboardKeep [⟨"M", some "sports", 1/2, 1⟩, ⟨"M", none, 9/10, 2⟩] (some "sports")
        ⟨"M", none, 9/10, 10, 1/2, 1/2, 2⟩ = true ∧
      (⟨"M", none, 9/10, 10, 1/2, 1/2, 2⟩ ∈ get_trust_leaderboard
          [⟨"M", some "sports", 1/2, 1⟩, ⟨"M", none, 9/10, 2⟩]
          [⟨"M", 10, 1/2, 1/2⟩] (some "sports") 50 ↔
        ⟨"M", none, 9/10, 10, 1/2, 1/2, 2⟩ ∈
          (leaderboardJoined [⟨"M", some "sports", 1/2, 1⟩, ⟨"M", none, 9/10, 2⟩]
            [⟨"M", 10, 1/2, 1/2⟩]).filter
            (leaderboardKeep [⟨"M", some "sports", 1/2, 1⟩, ⟨"M", none, 9/10, 2⟩]
              (some "sports"))) := by
  have hmem : (⟨"M", none, 9/10, 10, 1/2, 1/2, 2⟩ : LeaderRow) ∈ get_trust_leaderboard
      [⟨"M", some "sports", 1/2, 1⟩, ⟨"M", none, 9/10, 2⟩]
      [⟨"M", 10, 1/2, 1/2⟩] (some "sports") 50 := by
    norm_num [get_trust_leaderboard, leaderboardJoined, leaderboardKeep, latestMatchingDate,
      categoryKeep, joinRow, List.insertionSort, List.orderedInsert, leaderOrder,
      List.filter, List.flatMap]
  have hlen : ((leaderboardJoined [⟨"M", some "sports", 1/2, 1⟩, ⟨"M", none, 9/10, 2⟩]
      [⟨"M", 10, 1/2, 1/2⟩]).filter
      (leaderboardKeep [⟨"M", some "sports", 1/2, 1⟩, ⟨"M", none, 9/10, 2⟩]
        (some "sports"))).length ≤ 50 := by
    norm_num [leaderboardJoined, leaderboardKeep, latestMatchingDate, categoryKeep,
      joinRow, List.filter, List.flatMap]
  exact ⟨(claim_C6_leaderboard_properties _ _ _ 50).2.2.1 _ hmem,
    (claim_C6_leaderboard_properties _ _ _ 50).2.2.2.2 _ hlen⟩

end TrustSwarm
